import Mathlib

/-!
# Verification of verify_md5deep

A shallow embedding of the core of `verify_md5deep.py` (line parser,
manifest loader, approximate set differ) together with theorems about
the spec-level claims. Machine strings are modelled as Lean `String`,
Python `float` division of small integer counts as exact division in `ℚ`,
and Python `set` as `Finset`. Regular-expression search (`re.search`)
is an external library call and is abstracted as a Boolean-valued
parameter `search : String → String → Bool` (pattern, text).
-/

/-- A manifest record: a (hash, path) pair of strings, as built by
`process_file` in the source. -/
abbrev Record := String × String

/-- The characters Python's `str.split()` / `str.strip()` treat as
whitespace: space, tab, newline, carriage return, vertical tab, form feed. -/
def isPySpace (c : Char) : Bool :=
  c = ' ' || c = '\t' || c = '\n' || c = '\r' || c = '\x0b' || c = '\x0c'

/-- Python's `str.strip()`: remove leading and trailing whitespace. -/
def pyStrip (s : String) : String :=
  String.mk (((s.data.dropWhile isPySpace).reverse.dropWhile isPySpace).reverse)

/-- Helper for `pySplitComma`: accumulates the current field (reversed)
while scanning the characters. -/
def pySplitCommaAux : List Char → List Char → List String
  | [], cur => [String.mk cur.reverse]
  | c :: cs, cur =>
    if c = ',' then String.mk cur.reverse :: pySplitCommaAux cs []
    else pySplitCommaAux cs (c :: cur)

/-- Python's `line.split(',')`: split at every comma, keeping empty fields
(so the result always has one more field than there are commas). -/
def pySplitComma (s : String) : List String :=
  pySplitCommaAux s.data []

/-- Helper for `pySplitWs`: accumulates the current field (reversed) while
scanning; runs of whitespace produce no empty fields. -/
def pySplitWsAux : List Char → List Char → List String
  | [], cur => if cur.isEmpty then [] else [String.mk cur.reverse]
  | c :: cs, cur =>
    if isPySpace c then
      if cur.isEmpty then pySplitWsAux cs []
      else String.mk cur.reverse :: pySplitWsAux cs []
    else pySplitWsAux cs (c :: cur)

/-- Python's `line.split()` (no argument): split on runs of whitespace,
dropping empty fields and any leading/trailing whitespace. -/
def pySplitWs (s : String) : List String :=
  pySplitWsAux s.data []

/-- The line-format dispatch of `process_file` (source lines 108-126):
`split_1 = line.split(',')`, `split_2 = line.split()`, then the branch
chain on the field counts, in the source's order: comma-4, whitespace-4,
whitespace-2, comma-3, otherwise the line is skipped. -/
def parse_line (line : String) : Option Record :=
  let split_1 := pySplitComma line
  let split_2 := pySplitWs line
  if split_1.length = 4 then
    some (pyStrip (split_1.getD 1 ""), pyStrip (split_1.getD 3 ""))
  else if split_2.length = 4 then
    some (pyStrip (split_2.getD 1 ""), pyStrip (split_2.getD 3 ""))
  else if split_2.length = 2 then
    some (pyStrip (split_2.getD 0 ""), pyStrip (split_2.getD 1 ""))
  else if split_1.length = 3 then
    some (pyStrip (split_1.getD 1 ""), pyStrip (split_1.getD 2 ""))
  else
    none

/-- `path1[-(k):] = path2[-(k):]` for `k ≥ 1` as used in the loop of
`are_paths_similar`: the last `k` characters of the two strings agree. -/
def suffixEq (l1 l2 : List Char) (k : Nat) : Bool :=
  decide (l1.drop (l1.length - k) = l2.drop (l2.length - k))

/-- The loop of `are_paths_similar` (source lines 38-43):
`for i in range(min_len): if path1[-(i+1):] == path2[-(i+1):]:
match_index = i; else: break`.  `i` is the current index, `remaining`
the number of iterations left (initially `min_len`), `acc` the current
value of `match_index` (initially `-1`). -/
def matchIndexGo (l1 l2 : List Char) : Nat → Nat → Int → Int
  | _, 0, acc => acc
  | i, remaining + 1, acc =>
    if suffixEq l1 l2 (i + 1) then matchIndexGo l1 l2 (i + 1) remaining (i : Int)
    else acc

/-- `are_paths_similar(path1, path2, cutoff_percentage=0.4)` from the
source (lines 20-58).  The float cutoff `0.4` and the float divisions
`cut / len` are modelled exactly in `ℚ`. -/
def are_paths_similar (path1 path2 : String) (cutoff_percentage : ℚ) : Bool :=
  let min_len := min path1.length path2.length
  let match_index := matchIndexGo path1.data path2.data 0 min_len (-1)
  if match_index = -1 then
    false
  else
    let cut1 : Int := (path1.length : Int) - match_index - 1
    let cut2 : Int := (path2.length : Int) - match_index - 1
    let perc1 : ℚ := (cut1 : ℚ) / (path1.length : ℚ)
    let perc2 : ℚ := (cut2 : ℚ) / (path2.length : ℚ)
    decide (perc1 ≤ cutoff_percentage ∧ perc2 ≤ cutoff_percentage)

/-- The body of the loop of `find_similar_or_exact` (source lines 81-92):
does `other_item` match `item` under the flags? -/
def record_matches (ignore_hashes ignore_paths : Bool) (cutoff_percentage : ℚ)
    (item other_item : Record) : Bool :=
  if ignore_hashes then are_paths_similar item.2 other_item.2 cutoff_percentage
  else if ignore_paths then item.1 == other_item.1
  else item.1 == other_item.1 && are_paths_similar item.2 other_item.2 cutoff_percentage

/-- `find_similar_or_exact(item, comparison_set)` (source lines 76-93):
true iff some element of the comparison set matches `item`. -/
def find_similar_or_exact (ignore_hashes ignore_paths : Bool) (cutoff_percentage : ℚ)
    (item : Record) (comparison_set : Finset Record) : Bool :=
  decide (∃ other_item ∈ comparison_set,
    record_matches ignore_hashes ignore_paths cutoff_percentage item other_item = true)

/-- `subtract_sets_with_similar_paths(set1, set2, ignore_hashes,
ignore_paths, cutoff_percentage=0.4)` (source lines 61-101): the pair
(unique_to_set1, unique_to_set2). -/
def subtract_sets_with_similar_paths (set1 set2 : Finset Record)
    (ignore_hashes ignore_paths : Bool) (cutoff_percentage : ℚ) :
    Finset Record × Finset Record :=
  (set1.filter (fun item =>
      find_similar_or_exact ignore_hashes ignore_paths cutoff_percentage item set2 = false),
   set2.filter (fun item =>
      find_similar_or_exact ignore_hashes ignore_paths cutoff_percentage item set1 = false))

/-- The all-asterisk placeholder hash of source line 141 (32 asterisks). -/
def placeholderHash : String := "********************************"

/-- The per-record filtering of `process_file` (source lines 128-145),
acting on the accumulated (excluded_pairs, file_set) state.  A pattern
list is "supplied" when nonempty (Python truthiness of `None`/`[]`).
`search pattern text` abstracts `re.search(pattern, text)`. -/
def process_record (search : String → String → Bool)
    (exclude_path_list include_path_list : List String) (ignore_hashes_set : Bool)
    (pair : Record) (excluded_pairs : List Record) (file_set : Finset Record) :
    List Record × Finset Record :=
  if exclude_path_list ≠ [] ∧
      exclude_path_list.any (fun pat => search pat pair.2) = true then
    (excluded_pairs ++ [pair], file_set)
  else if include_path_list ≠ [] ∧
      include_path_list.any (fun pat => search pat pair.2) = false then
    (excluded_pairs ++ [pair], file_set)
  else if pair.1 = placeholderHash ∧ ignore_hashes_set = false then
    (excluded_pairs ++ [pair], file_set)
  else
    (excluded_pairs, insert pair file_set)

/-- One iteration of the `for line in f` loop of `process_file`: parse
the line; if unrecognized skip it, otherwise run the per-record
filtering on the accumulated state. -/
def process_step (search : String → String → Bool)
    (exclude_path_list include_path_list : List String) (ignore_hashes_set : Bool)
    (st : List Record × Finset Record) (line : String) :
    List Record × Finset Record :=
  match parse_line line with
  | none => st
  | some pair =>
    process_record search exclude_path_list include_path_list ignore_hashes_set
      pair st.1 st.2

/-- `process_file` (source lines 104-147) on the list of raw lines of the
manifest file: parse each line, run the per-record filtering, and return
the final (excluded_pairs, file_set) state.  The caller passes the
initial excluded list (`[]` in `main`). -/
def process_file (search : String → String → Bool) (file_lines : List String)
    (excluded_pairs : List Record) (ignore_hashes_set : Bool)
    (exclude_path_list include_path_list : List String) :
    List Record × Finset Record :=
  file_lines.foldl (process_step search exclude_path_list include_path_list ignore_hashes_set)
    (excluded_pairs, ∅)

/-- Outcome of the configuration checks at the start of `main`
(source lines 174-179). -/
inductive ConfigOutcome
  | exitError
  | warnBothLists
  | proceedSilently
deriving DecidableEq

/-- The configuration checks of `main` (source lines 174-179): both
ignore flags set exits with an error; both pattern lists supplied prints
a conflict message and continues; otherwise nothing is reported. -/
def main_config_check (ignore_hashes ignore_paths : Bool)
    (exclude_path_list include_path_list : List String) : ConfigOutcome :=
  if ignore_paths = true ∧ ignore_hashes = true then ConfigOutcome.exitError
  else if exclude_path_list ≠ [] ∧ include_path_list ≠ [] then ConfigOutcome.warnBothLists
  else ConfigOutcome.proceedSilently

/-- The three comparison modes of the spec (§3): ignore-hashes,
ignore-paths, and the default mode. -/
inductive CompareMode
  | ignoreHashesMode
  | ignorePathsMode
  | defaultMode
deriving DecidableEq

/-- The (ignore_hashes, ignore_paths) flag pair a mode corresponds to. -/
def modeFlags : CompareMode → Bool × Bool
  | CompareMode.ignoreHashesMode => (true, false)
  | CompareMode.ignorePathsMode => (false, true)
  | CompareMode.defaultMode => (false, false)

/-- Modelled from the spec (§4.3): the match predicate of each mode —
ignore-hashes matches iff the paths are similar, ignore-paths iff the
hashes are equal, default iff both.  The cutoff is the default 0.4. -/
def specMatch (mode : CompareMode) (r1 r2 : Record) : Bool :=
  match mode with
  | CompareMode.ignoreHashesMode => are_paths_similar r1.2 r2.2 (2/5)
  | CompareMode.ignorePathsMode => r1.1 == r2.1
  | CompareMode.defaultMode => r1.1 == r2.1 && are_paths_similar r1.2 r2.2 (2/5)

/-- Modelled from the spec (§4.3 step 1): the length of the longest
common suffix of the two character lists, via the longest common prefix
of the reversals. -/
def commonPrefixLen : List Char → List Char → Nat
  | a :: as, b :: bs => if a = b then commonPrefixLen as bs + 1 else 0
  | _, _ => 0

/-- The length of the longest common suffix of two character lists. -/
def commonSuffixLen (l1 l2 : List Char) : Nat :=
  commonPrefixLen l1.reverse l2.reverse

/-! ## Lemmas about common prefixes and suffixes -/

theorem string_length_data (s : String) : s.length = s.data.length := rfl

theorem commonPrefixLen_le_left : ∀ as bs : List Char, commonPrefixLen as bs ≤ as.length := by
  intro as
  induction as with
  | nil => intro bs; cases bs <;> simp [commonPrefixLen]
  | cons a as ih =>
    intro bs
    cases bs with
    | nil => simp [commonPrefixLen]
    | cons b bs =>
      by_cases hab : a = b
      · simp only [commonPrefixLen, if_pos hab, List.length_cons]
        exact Nat.succ_le_succ (ih bs)
      · simp [commonPrefixLen, hab]

theorem commonPrefixLen_le_right : ∀ as bs : List Char, commonPrefixLen as bs ≤ bs.length := by
  intro as
  induction as with
  | nil => intro bs; cases bs <;> simp [commonPrefixLen]
  | cons a as ih =>
    intro bs
    cases bs with
    | nil => simp [commonPrefixLen]
    | cons b bs =>
      by_cases hab : a = b
      · simp only [commonPrefixLen, if_pos hab, List.length_cons]
        exact Nat.succ_le_succ (ih bs)
      · simp [commonPrefixLen, hab]

theorem commonPrefixLen_comm : ∀ as bs : List Char, commonPrefixLen as bs = commonPrefixLen bs as := by
  intro as
  induction as with
  | nil => intro bs; cases bs <;> simp [commonPrefixLen]
  | cons a as ih =>
    intro bs
    cases bs with
    | nil => simp [commonPrefixLen]
    | cons b bs =>
      by_cases hab : a = b
      · subst hab; simp [commonPrefixLen, ih]
      · simp [commonPrefixLen, hab, Ne.symm hab]

theorem commonPrefixLen_self : ∀ l : List Char, commonPrefixLen l l = l.length := by
  intro l
  induction l with
  | nil => rfl
  | cons a l ih => simp [commonPrefixLen, ih]

theorem take_eq_iff_le_commonPrefixLen :
    ∀ (as bs : List Char) (k : Nat), k ≤ as.length → k ≤ bs.length →
      (as.take k = bs.take k ↔ k ≤ commonPrefixLen as bs) := by
  intro as
  induction as with
  | nil =>
    intro bs k hk1 _
    have hk0 : k = 0 := Nat.le_zero.mp (by simpa using hk1)
    subst hk0
    simp
  | cons a as ih =>
    intro bs k hk1 hk2
    cases k with
    | zero => simp
    | succ k =>
      cases bs with
      | nil => simp at hk2
      | cons b bs =>
        by_cases hab : a = b
        · subst hab
          simp only [commonPrefixLen, eq_self_iff_true, if_true, List.take_succ_cons,
            List.cons.injEq, true_and]
          rw [ih bs k (by simpa using hk1) (by simpa using hk2)]
          omega
        · simp only [commonPrefixLen, if_neg hab, List.take_succ_cons, List.cons.injEq]
          constructor
          · rintro ⟨h, _⟩
            exact absurd h hab
          · intro h
            exact absurd h (Nat.not_succ_le_zero k)

theorem commonSuffixLen_le_left (l1 l2 : List Char) : commonSuffixLen l1 l2 ≤ l1.length := by
  have := commonPrefixLen_le_left l1.reverse l2.reverse
  simpa [commonSuffixLen] using this

theorem commonSuffixLen_le_right (l1 l2 : List Char) : commonSuffixLen l1 l2 ≤ l2.length := by
  have := commonPrefixLen_le_right l1.reverse l2.reverse
  simpa [commonSuffixLen] using this

theorem commonSuffixLen_comm (l1 l2 : List Char) :
    commonSuffixLen l1 l2 = commonSuffixLen l2 l1 :=
  commonPrefixLen_comm l1.reverse l2.reverse

theorem commonSuffixLen_self (l : List Char) : commonSuffixLen l l = l.length := by
  simp [commonSuffixLen, commonPrefixLen_self]

theorem suffixEq_iff (l1 l2 : List Char) (k : Nat) (hk1 : k ≤ l1.length)
    (hk2 : k ≤ l2.length) : suffixEq l1 l2 k = true ↔ k ≤ commonSuffixLen l1 l2 := by
  have h1 : l1.drop (l1.length - k) = (l1.reverse.take k).reverse := by
    simpa [List.rtake] using List.rtake_eq_reverse_take_reverse l1 k
  have h2 : l2.drop (l2.length - k) = (l2.reverse.take k).reverse := by
    simpa [List.rtake] using List.rtake_eq_reverse_take_reverse l2 k
  rw [suffixEq, decide_eq_true_eq, h1, h2, List.reverse_inj]
  rw [take_eq_iff_le_commonPrefixLen l1.reverse l2.reverse k (by simpa using hk1)
    (by simpa using hk2)]
  rfl

/-! ## The loop of are_paths_similar computes the longest common suffix -/

theorem matchIndexGo_spec (l1 l2 : List Char) :
    ∀ remaining i : Nat, i + remaining = min l1.length l2.length →
      i ≤ commonSuffixLen l1 l2 →
      matchIndexGo l1 l2 i remaining ((i : Int) - 1) =
        (commonSuffixLen l1 l2 : Int) - 1 := by
  intro remaining
  induction remaining with
  | zero =>
    intro i hmin hi
    have hL1 := commonSuffixLen_le_left l1 l2
    have hL2 := commonSuffixLen_le_right l1 l2
    have hiL : i = commonSuffixLen l1 l2 := by omega
    rw [hiL]
    rfl
  | succ remaining ih =>
    intro i hmin hi
    have hk1 : i + 1 ≤ l1.length := by omega
    have hk2 : i + 1 ≤ l2.length := by omega
    cases hse : suffixEq l1 l2 (i + 1) with
    | false =>
      have hnot : ¬ (i + 1 ≤ commonSuffixLen l1 l2) := by
        intro hle
        rw [(suffixEq_iff l1 l2 (i + 1) hk1 hk2).mpr hle] at hse
        simp at hse
      have hiL : i = commonSuffixLen l1 l2 := by omega
      simp only [matchIndexGo, hse, Bool.false_eq_true, if_false]
      rw [hiL]
    | true =>
      have hs : i + 1 ≤ commonSuffixLen l1 l2 :=
        (suffixEq_iff l1 l2 (i + 1) hk1 hk2).mp hse
      have hstep : matchIndexGo l1 l2 i (remaining + 1) ((i : Int) - 1) =
          matchIndexGo l1 l2 (i + 1) remaining (i : Int) := by
        simp only [matchIndexGo, hse, if_true]
      have hacc : (i : Int) = ((i + 1 : Nat) : Int) - 1 := by omega
      rw [hstep, hacc]
      exact ih (i + 1) (by omega) hs

theorem matchIndexGo_zero (l1 l2 : List Char) :
    matchIndexGo l1 l2 0 (min l1.length l2.length) (-1) =
      (commonSuffixLen l1 l2 : Int) - 1 := by
  have h := matchIndexGo_spec l1 l2 (min l1.length l2.length) 0 (by omega) (Nat.zero_le _)
  simpa using h

/-! ## Characterization of are_paths_similar -/

theorem are_paths_similar_iff (p1 p2 : String) (c : ℚ) :
    are_paths_similar p1 p2 c = true ↔
      (0 < commonSuffixLen p1.data p2.data ∧
       ((p1.length : ℚ) - (commonSuffixLen p1.data p2.data : ℚ)) / (p1.length : ℚ) ≤ c ∧
       ((p2.length : ℚ) - (commonSuffixLen p1.data p2.data : ℚ)) / (p2.length : ℚ) ≤ c) := by
  unfold are_paths_similar
  simp only [string_length_data]
  simp only [matchIndexGo_zero]
  rcases Nat.eq_zero_or_pos (commonSuffixLen p1.data p2.data) with hL | hL
  · simp [hL]
  · rw [if_neg (by omega), decide_eq_true_eq]
    push_cast
    ring_nf
    simp [hL]

theorem data_eq_nil_iff (s : String) : s.data = [] ↔ s = "" := by
  constructor
  · intro h
    cases s
    simp_all [String.ext_iff]
  · intro h
    rw [h]

theorem are_paths_similar_nil (p1 p2 : String) (c : ℚ) (h : p1 = "" ∨ p2 = "") :
    matchIndexGo p1.data p2.data 0 (min p1.length p2.length) (-1) = -1 ∧
      are_paths_similar p1 p2 c = false := by
  have h0 : ("" : String).length = 0 := rfl
  have h0d : ("" : String).data.length = 0 := rfl
  have hmin : min p1.length p2.length = 0 := by
    rcases h with h | h <;> rw [h, h0] <;> omega
  have hcs : commonSuffixLen p1.data p2.data = 0 := by
    rcases h with h | h
    · subst h
      have hle := commonSuffixLen_le_left ("" : String).data p2.data
      rw [h0d] at hle
      omega
    · subst h
      have hle := commonSuffixLen_le_right p1.data ("" : String).data
      rw [h0d] at hle
      omega
  refine ⟨by rw [hmin]; rfl, ?_⟩
  cases hb : are_paths_similar p1 p2 c with
  | false => rfl
  | true =>
    have hiff := (are_paths_similar_iff p1 p2 c).mp hb
    rw [hcs] at hiff
    exact absurd hiff.1 (lt_irrefl 0)

theorem are_paths_similar_comm (p1 p2 : String) (c : ℚ) :
    are_paths_similar p1 p2 c = are_paths_similar p2 p1 c := by
  rw [Bool.eq_iff_iff, are_paths_similar_iff, are_paths_similar_iff,
    commonSuffixLen_comm p2.data p1.data]
  tauto

theorem are_paths_similar_self (p : String) (h : p ≠ "") :
    are_paths_similar p p (2/5) = true := by
  rw [are_paths_similar_iff]
  have hL : commonSuffixLen p.data p.data = p.data.length := commonSuffixLen_self p.data
  have hpos : 0 < p.data.length := by
    cases hd : p.data with
    | nil => exact absurd ((data_eq_nil_iff p).mp hd) h
    | cons a l => simp
  rw [hL, string_length_data]
  refine ⟨hpos, ?_, ?_⟩ <;>
  · rw [sub_self, zero_div]
    norm_num

/-! ## Lemmas about the approximate set differ -/

theorem find_similar_eq_false_iff (ih ip : Bool) (c : ℚ) (item : Record) (s : Finset Record) :
    find_similar_or_exact ih ip c item s = false ↔
      ∀ o ∈ s, record_matches ih ip c item o = false := by
  unfold find_similar_or_exact
  rw [decide_eq_false_iff_not]
  simp [not_exists, Bool.not_eq_true]

theorem mem_subtract_first (A B : Finset Record) (ih ip : Bool) (c : ℚ) (r : Record) :
    r ∈ (subtract_sets_with_similar_paths A B ih ip c).1 ↔
      r ∈ A ∧ ∀ o ∈ B, record_matches ih ip c r o = false := by
  unfold subtract_sets_with_similar_paths
  rw [Finset.mem_filter, find_similar_eq_false_iff]

theorem mem_subtract_second (A B : Finset Record) (ih ip : Bool) (c : ℚ) (r : Record) :
    r ∈ (subtract_sets_with_similar_paths A B ih ip c).2 ↔
      r ∈ B ∧ ∀ o ∈ A, record_matches ih ip c r o = false := by
  unfold subtract_sets_with_similar_paths
  rw [Finset.mem_filter, find_similar_eq_false_iff]

theorem record_matches_modeFlags (mode : CompareMode) (r o : Record) :
    record_matches (modeFlags mode).1 (modeFlags mode).2 (2/5) r o = specMatch mode r o := by
  cases mode <;> rfl

/-! ## Lemmas about the manifest loader -/

theorem process_record_exclude (search : String → String → Bool)
    (exclude_path_list include_path_list : List String) (ihs : Bool) (pair : Record)
    (exc : List Record) (fs : Finset Record) (hne : exclude_path_list ≠ [])
    (hm : exclude_path_list.any (fun pat => search pat pair.2) = true) :
    process_record search exclude_path_list include_path_list ihs pair exc fs =
      (exc ++ [pair], fs) := by
  unfold process_record
  rw [if_pos ⟨hne, hm⟩]

theorem process_record_set_mem (search : String → String → Bool)
    (exclude_path_list include_path_list : List String) (ihs : Bool) (pair r : Record)
    (exc : List Record) (fs : Finset Record) (hne : exclude_path_list ≠ [])
    (hm : exclude_path_list.any (fun pat => search pat r.2) = true) :
    (r ∈ (process_record search exclude_path_list include_path_list ihs pair exc fs).2 ↔
      r ∈ fs) := by
  unfold process_record
  split
  · exact Iff.rfl
  · split
    · exact Iff.rfl
    · split
      · exact Iff.rfl
      · rename_i hc1 hc2 hc3
        have hpa : pair ≠ r := by
          intro he
          subst he
          exact hc1 ⟨hne, hm⟩
        constructor
        · intro hin
          rcases Finset.mem_insert.mp hin with he | hf
          · exact absurd he.symm hpa
          · exact hf
        · intro hf
          exact Finset.mem_insert_of_mem hf

theorem process_record_excl_mono (search : String → String → Bool)
    (exclude_path_list include_path_list : List String) (ihs : Bool) (pair : Record)
    (exc : List Record) (fs : Finset Record) :
    ∃ tail, (process_record search exclude_path_list include_path_list ihs pair exc fs).1 =
      exc ++ tail := by
  unfold process_record
  split
  · exact ⟨[pair], rfl⟩
  · split
    · exact ⟨[pair], rfl⟩
    · split
      · exact ⟨[pair], rfl⟩
      · exact ⟨[], (List.append_nil exc).symm⟩

theorem process_fold_set_mem (search : String → String → Bool)
    (exclude_path_list include_path_list : List String) (ihs : Bool) (r : Record)
    (hne : exclude_path_list ≠ [])
    (hm : exclude_path_list.any (fun pat => search pat r.2) = true) :
    ∀ (file_lines : List String) (st : List Record × Finset Record),
      (r ∈ (file_lines.foldl
          (process_step search exclude_path_list include_path_list ihs) st).2 ↔
        r ∈ st.2) := by
  intro file_lines
  induction file_lines with
  | nil => intro st; exact Iff.rfl
  | cons line rest ihl =>
    intro st
    rw [List.foldl_cons, ihl]
    unfold process_step
    cases hp : parse_line line with
    | none => exact Iff.rfl
    | some pair =>
      exact process_record_set_mem search exclude_path_list include_path_list ihs pair r
        st.1 st.2 hne hm

theorem process_fold_excl_mono (search : String → String → Bool)
    (exclude_path_list include_path_list : List String) (ihs : Bool) :
    ∀ (file_lines : List String) (st : List Record × Finset Record),
      ∃ tail, (file_lines.foldl
          (process_step search exclude_path_list include_path_list ihs) st).1 =
        st.1 ++ tail := by
  intro file_lines
  induction file_lines with
  | nil => intro st; exact ⟨[], (List.append_nil st.1).symm⟩
  | cons line rest ihl =>
    intro st
    rw [List.foldl_cons]
    obtain ⟨t2, ht2⟩ := ihl (process_step search exclude_path_list include_path_list ihs st line)
    rw [ht2]
    unfold process_step
    cases hp : parse_line line with
    | none => exact ⟨t2, rfl⟩
    | some pair =>
      obtain ⟨t1, ht1⟩ := process_record_excl_mono search exclude_path_list include_path_list
        ihs pair st.1 st.2
      rw [ht1, List.append_assoc]
      exact ⟨t1 ++ t2, rfl⟩

theorem process_fold_excl_mem (search : String → String → Bool)
    (exclude_path_list include_path_list : List String) (ihs : Bool) (r : Record)
    (hne : exclude_path_list ≠ [])
    (hm : exclude_path_list.any (fun pat => search pat r.2) = true) :
    ∀ (file_lines : List String) (st : List Record × Finset Record),
      (∃ line ∈ file_lines, parse_line line = some r) →
      r ∈ (file_lines.foldl
          (process_step search exclude_path_list include_path_list ihs) st).1 := by
  intro file_lines
  induction file_lines with
  | nil =>
    rintro st ⟨line, hmem, _⟩
    simp at hmem
  | cons line rest ihl =>
    rintro st ⟨l, hl, hpl⟩
    rw [List.foldl_cons]
    rcases List.mem_cons.mp hl with he | hrest
    · subst he
      obtain ⟨tail, htail⟩ := process_fold_excl_mono search exclude_path_list include_path_list
        ihs rest (process_step search exclude_path_list include_path_list ihs st l)
      rw [htail]
      have hstep : (process_step search exclude_path_list include_path_list ihs st l).1 =
          st.1 ++ [r] := by
        unfold process_step
        rw [hpl]
        show (process_record search exclude_path_list include_path_list ihs r st.1 st.2).1 =
          st.1 ++ [r]
        rw [process_record_exclude search exclude_path_list include_path_list ihs r
          st.1 st.2 hne hm]
      rw [hstep]
      simp
    · exact ihl (process_step search exclude_path_list include_path_list ihs st line)
        ⟨l, hrest, hpl⟩

/-! ## Claim theorems -/

/-- C1: for every pair of non-empty paths p1, p2 and cutoff c,
are_paths_similar(p1, p2, c) returns true iff the length m of the longest
common suffix is strictly positive and (len(p1) - m) / len(p1) ≤ c and
(len(p2) - m) / len(p2) ≤ c; when m = 0 it returns false. -/
theorem are_paths_similar_characterization (p1 p2 : String) (c : ℚ)
    (h1 : p1 ≠ "") (h2 : p2 ≠ "") :
    (are_paths_similar p1 p2 c = true ↔
      (0 < commonSuffixLen p1.data p2.data ∧
       ((p1.length : ℚ) - (commonSuffixLen p1.data p2.data : ℚ)) / (p1.length : ℚ) ≤ c ∧
       ((p2.length : ℚ) - (commonSuffixLen p1.data p2.data : ℚ)) / (p2.length : ℚ) ≤ c)) ∧
    (commonSuffixLen p1.data p2.data = 0 → are_paths_similar p1 p2 c = false) := by
  refine ⟨are_paths_similar_iff p1 p2 c, ?_⟩
  intro hm
  cases hb : are_paths_similar p1 p2 c with
  | false => rfl
  | true =>
    have hiff := (are_paths_similar_iff p1 p2 c).mp hb
    rw [hm] at hiff
    exact absurd hiff.1 (lt_irrefl 0)

/-- Witness for C1 at p1 = "ab", p2 = "b", c = 2/5. -/
theorem are_paths_similar_characterization_witness :
    ("ab" : String) ≠ "" ∧ ("b" : String) ≠ "" ∧
    ((are_paths_similar "ab" "b" (2/5) = true ↔
      (0 < commonSuffixLen ("ab" : String).data ("b" : String).data ∧
       ((("ab" : String).length : ℚ) -
          (commonSuffixLen ("ab" : String).data ("b" : String).data : ℚ)) /
          (("ab" : String).length : ℚ) ≤ 2/5 ∧
       ((("b" : String).length : ℚ) -
          (commonSuffixLen ("ab" : String).data ("b" : String).data : ℚ)) /
          (("b" : String).length : ℚ) ≤ 2/5)) ∧
     (commonSuffixLen ("ab" : String).data ("b" : String).data = 0 →
       are_paths_similar "ab" "b" (2/5) = false)) :=
  ⟨by decide, by decide,
    are_paths_similar_characterization "ab" "b" (2/5) (by decide) (by decide)⟩

/-- C2: for every comparison mode, a record of A is in unique_to_set1 iff no
record of B satisfies the mode's match predicate, and symmetrically for
records of B in unique_to_set2. -/
theorem subtract_sets_mode_membership (mode : CompareMode) (A B : Finset Record)
    (r : Record) :
    (r ∈ (subtract_sets_with_similar_paths A B (modeFlags mode).1 (modeFlags mode).2
        (2/5)).1 ↔
      r ∈ A ∧ ∀ o ∈ B, specMatch mode r o = false) ∧
    (r ∈ (subtract_sets_with_similar_paths A B (modeFlags mode).1 (modeFlags mode).2
        (2/5)).2 ↔
      r ∈ B ∧ ∀ o ∈ A, specMatch mode r o = false) := by
  constructor
  · rw [mem_subtract_first]
    simp only [record_matches_modeFlags]
  · rw [mem_subtract_second]
    simp only [record_matches_modeFlags]

/-- C3 counterexample: on the line "1,2,3 4" comma-splitting yields exactly
3 fields, yet the parser produces ("1,2,3", "4") via the whitespace-2 dialect,
not (field[1], field[2]) = ("2", "3 4") — whitespace-splitting IS consulted
before the comma-3 dialect. -/
theorem parse_line_comma3_precedence_cex :
    (pySplitComma "1,2,3 4").length = 3 ∧
    parse_line "1,2,3 4" = some ("1,2,3", "4") ∧
    parse_line "1,2,3 4" ≠ some ("2", "3 4") :=
  ⟨by decide, by decide, by decide⟩

/-- C3 amended: the dialect precedence is comma-4, whitespace-4, whitespace-2,
comma-3; when comma-splitting yields exactly 3 fields AND whitespace-splitting
yields neither 4 nor 2 fields, the produced record is (field[1], field[2]). -/
theorem parse_line_comma3_after_whitespace (line : String)
    (h3 : (pySplitComma line).length = 3)
    (hw4 : (pySplitWs line).length ≠ 4) (hw2 : (pySplitWs line).length ≠ 2) :
    parse_line line = some (pyStrip ((pySplitComma line).getD 1 ""),
      pyStrip ((pySplitComma line).getD 2 "")) := by
  simp only [parse_line]
  rw [if_neg (by rw [h3]; decide), if_neg hw4, if_neg hw2, if_pos h3]

/-- Witness for the amended C3 at the line "a,b,c". -/
theorem parse_line_comma3_after_whitespace_witness :
    (pySplitComma "a,b,c").length = 3 ∧ (pySplitWs "a,b,c").length ≠ 4 ∧
    (pySplitWs "a,b,c").length ≠ 2 ∧
    parse_line "a,b,c" = some (pyStrip ((pySplitComma "a,b,c").getD 1 ""),
      pyStrip ((pySplitComma "a,b,c").getD 2 "")) :=
  ⟨by decide, by decide, by decide,
    parse_line_comma3_after_whitespace "a,b,c" (by decide) (by decide) (by decide)⟩

/-- C4 counterexample: for the record set \x7b("h", "")\x7d the default-mode diff
of the set with itself is NOT a pair of empty sets — a record with an empty
path does not match itself because are_paths_similar rejects empty strings. -/
theorem subtract_self_empty_path_cex :
    subtract_sets_with_similar_paths {("h", "")} {("h", "")} false false (2/5) ≠
      (∅, ∅) := by
  intro hEq
  have hmem : (("h", "") : Record) ∈
      (subtract_sets_with_similar_paths {("h", "")} {("h", "")} false false (2/5)).1 := by
    rw [mem_subtract_first]
    refine ⟨Finset.mem_singleton_self _, ?_⟩
    intro o ho
    rw [Finset.mem_singleton] at ho
    subst ho
    have hf := (are_paths_similar_nil "" "" (2/5) (Or.inl rfl)).2
    show (("h" == "h") && are_paths_similar "" "" (2/5)) = false
    rw [hf]
    simp
  rw [hEq] at hmem
  exact absurd hmem (Finset.not_mem_empty _)

/-- C4 amended: for every record set A in which every record has a non-empty
path, the default-mode diff of A with itself is a pair of empty sets. -/
theorem subtract_self_nonempty_paths (A : Finset Record)
    (h : ∀ r ∈ A, r.2 ≠ "") :
    subtract_sets_with_similar_paths A A false false (2/5) = (∅, ∅) := by
  have h1 : (subtract_sets_with_similar_paths A A false false (2/5)).1 = ∅ := by
    rw [Finset.eq_empty_iff_forall_not_mem]
    intro r hr
    rw [mem_subtract_first] at hr
    obtain ⟨hrA, hall⟩ := hr
    have hmatch := hall r hrA
    have hsim := are_paths_similar_self r.2 (h r hrA)
    rw [show record_matches false false (2/5) r r =
      (r.1 == r.1 && are_paths_similar r.2 r.2 (2/5)) from rfl] at hmatch
    simp [hsim] at hmatch
  have h2 : (subtract_sets_with_similar_paths A A false false (2/5)).2 = ∅ := by
    rw [Finset.eq_empty_iff_forall_not_mem]
    intro r hr
    rw [mem_subtract_second] at hr
    obtain ⟨hrA, hall⟩ := hr
    have hmatch := hall r hrA
    have hsim := are_paths_similar_self r.2 (h r hrA)
    rw [show record_matches false false (2/5) r r =
      (r.1 == r.1 && are_paths_similar r.2 r.2 (2/5)) from rfl] at hmatch
    simp [hsim] at hmatch
  exact Prod.ext h1 h2

/-- Witness for the amended C4 at A = \x7b("a", "/x")\x7d. -/
theorem subtract_self_nonempty_paths_witness :
    subtract_sets_with_similar_paths {("a", "/x")} {("a", "/x")} false false (2/5) =
      (∅, ∅) :=
  subtract_self_nonempty_paths {("a", "/x")} (by decide)

/-- C5: a parsed record that passes the pattern filters and whose hash is the
32-asterisk sentinel is appended to the excluded list and omitted from the
record set when ignore_hashes_set is false, and inserted into the record set
when ignore_hashes_set is true. -/
theorem process_record_placeholder_hash (search : String → String → Bool)
    (exclude_path_list include_path_list : List String) (ihs : Bool) (pair : Record)
    (exc : List Record) (fs : Finset Record)
    (hex : exclude_path_list = [] ∨
      exclude_path_list.any (fun pat => search pat pair.2) = false)
    (hinc : include_path_list = [] ∨
      include_path_list.any (fun pat => search pat pair.2) = true)
    (hhash : pair.1 = placeholderHash) :
    process_record search exclude_path_list include_path_list ihs pair exc fs =
      if ihs then (exc, insert pair fs) else (exc ++ [pair], fs) := by
  unfold process_record
  have hc1 : ¬ (exclude_path_list ≠ [] ∧
      exclude_path_list.any (fun pat => search pat pair.2) = true) := by
    rintro ⟨hne, hany⟩
    rcases hex with h | h
    · exact hne h
    · rw [h] at hany
      exact Bool.noConfusion hany
  have hc2 : ¬ (include_path_list ≠ [] ∧
      include_path_list.any (fun pat => search pat pair.2) = false) := by
    rintro ⟨hne, hany⟩
    rcases hinc with h | h
    · exact hne h
    · rw [h] at hany
      exact Bool.noConfusion hany
  rw [if_neg hc1, if_neg hc2]
  cases ihs with
  | true =>
    rw [if_neg]
    · rfl
    · rintro ⟨_, hfalse⟩
      exact Bool.noConfusion hfalse
  | false =>
    rw [if_pos ⟨hhash, rfl⟩]
    rfl

/-- Witness for C5 at the record (placeholderHash, "/x/y") with no pattern
lists and ignore_hashes_set = false. -/
theorem process_record_placeholder_hash_witness :
    process_record (fun _ _ => false) [] [] false (placeholderHash, "/x/y") [] ∅ =
      if false then (([] : List Record),
        insert ((placeholderHash, "/x/y") : Record) (∅ : Finset Record))
      else ([] ++ [((placeholderHash, "/x/y") : Record)], (∅ : Finset Record)) :=
  process_record_placeholder_hash (fun _ _ => false) [] [] false
    (placeholderHash, "/x/y") [] ∅ (Or.inl rfl) (Or.inl rfl) rfl

/-- C6: when both an exclude-path list and an include-path list are supplied
(and the mutually exclusive ignore-flag check does not abort first), the
configuration conflict is reported to the user, and the loader applies both
filters rather than silently applying one while ignoring the other: a record
matching an exclude pattern is excluded, and a record matching no include
pattern is excluded. -/
theorem both_pattern_lists_reported_and_applied (ignore_hashes ignore_paths : Bool)
    (exclude_path_list include_path_list : List String)
    (search : String → String → Bool)
    (hne : exclude_path_list ≠ []) (hni : include_path_list ≠ [])
    (hflags : ¬ (ignore_paths = true ∧ ignore_hashes = true)) :
    main_config_check ignore_hashes ignore_paths exclude_path_list include_path_list =
      ConfigOutcome.warnBothLists ∧
    (∀ (pair : Record) (exc : List Record) (fs : Finset Record),
      (exclude_path_list.any (fun pat => search pat pair.2) = true →
        process_record search exclude_path_list include_path_list ignore_hashes
          pair exc fs = (exc ++ [pair], fs)) ∧
      (exclude_path_list.any (fun pat => search pat pair.2) = false →
       include_path_list.any (fun pat => search pat pair.2) = false →
        process_record search exclude_path_list include_path_list ignore_hashes
          pair exc fs = (exc ++ [pair], fs))) := by
  constructor
  · unfold main_config_check
    rw [if_neg hflags, if_pos ⟨hne, hni⟩]
  · intro pair exc fs
    constructor
    · intro hany
      exact process_record_exclude search exclude_path_list include_path_list
        ignore_hashes pair exc fs hne hany
    · intro hexf hincf
      unfold process_record
      rw [if_neg (fun hc => Bool.noConfusion (hexf ▸ hc.2))]
      rw [if_pos ⟨hni, hincf⟩]

/-- Witness for C6 with exclude list ["a"], include list ["b"], both ignore
flags false. -/
theorem both_pattern_lists_reported_and_applied_witness :
    main_config_check false false ["a"] ["b"] = ConfigOutcome.warnBothLists ∧
    (∀ (pair : Record) (exc : List Record) (fs : Finset Record),
      ((["a"] : List String).any (fun pat => (fun p t => p == t) pat pair.2) = true →
        process_record (fun p t => p == t) ["a"] ["b"] false pair exc fs =
          (exc ++ [pair], fs)) ∧
      ((["a"] : List String).any (fun pat => (fun p t => p == t) pat pair.2) = false →
       (["b"] : List String).any (fun pat => (fun p t => p == t) pat pair.2) = false →
        process_record (fun p t => p == t) ["a"] ["b"] false pair exc fs =
          (exc ++ [pair], fs))) :=
  both_pattern_lists_reported_and_applied false false ["a"] ["b"] (fun p t => p == t)
    (by decide) (by decide) (by decide)

/-- C7: the differ is symmetric in structure — unique_to_set1 of diff(A, B)
equals unique_to_set2 of diff(B, A) and vice versa — and are_paths_similar is
symmetric in truth value. -/
theorem diff_symmetric (A B : Finset Record) (ih ip : Bool) (c : ℚ) :
    (subtract_sets_with_similar_paths A B ih ip c).1 =
      (subtract_sets_with_similar_paths B A ih ip c).2 ∧
    (subtract_sets_with_similar_paths A B ih ip c).2 =
      (subtract_sets_with_similar_paths B A ih ip c).1 ∧
    ∀ p1 p2 : String, are_paths_similar p1 p2 c = are_paths_similar p2 p1 c :=
  ⟨rfl, rfl, fun p1 p2 => are_paths_similar_comm p1 p2 c⟩

/-- C8: for every non-empty path p, are_paths_similar(p, p) with the default
cutoff returns true. -/
theorem are_paths_similar_refl (p : String) (h : p ≠ "") :
    are_paths_similar p p (2/5) = true :=
  are_paths_similar_self p h

/-- Witness for C8 at p = "/a/b". -/
theorem are_paths_similar_refl_witness : are_paths_similar "/a/b" "/a/b" (2/5) = true :=
  are_paths_similar_refl "/a/b" (by decide)

/-- C9: a parsed record whose path matches at least one supplied exclude
pattern is appended to the exclusion list (whenever some manifest line parses
to it) and never appears in the returned record set. -/
theorem exclude_pattern_excluded (search : String → String → Bool)
    (exclude_path_list include_path_list : List String) (ihs : Bool) (r : Record)
    (file_lines : List String) (hne : exclude_path_list ≠ [])
    (hm : exclude_path_list.any (fun pat => search pat r.2) = true) :
    r ∉ (process_file search file_lines [] ihs exclude_path_list include_path_list).2 ∧
    ((∃ line ∈ file_lines, parse_line line = some r) →
      r ∈ (process_file search file_lines [] ihs exclude_path_list
        include_path_list).1) := by
  constructor
  · intro hmem
    unfold process_file at hmem
    have h2 := (process_fold_set_mem search exclude_path_list include_path_list ihs r
      hne hm file_lines ([], ∅)).mp hmem
    exact Finset.not_mem_empty r h2
  · intro hex
    unfold process_file
    exact process_fold_excl_mem search exclude_path_list include_path_list ihs r
      hne hm file_lines ([], ∅) hex

/-- Witness for C9: exclude list ["x"] with equality as the search function,
on the single manifest line "h x". -/
theorem exclude_pattern_excluded_witness :
    (("h", "x") : Record) ∉
      (process_file (fun p t => p == t) ["h x"] [] false ["x"] []).2 ∧
    ((∃ line ∈ ["h x"], parse_line line = some (("h", "x") : Record)) →
      (("h", "x") : Record) ∈
        (process_file (fun p t => p == t) ["h x"] [] false ["x"] []).1) :=
  exclude_pattern_excluded (fun p t => p == t) ["x"] [] false ("h", "x") ["h x"]
    (by decide) (by decide)

/-- C10: when either path is empty, the suffix loop returns -1 and
are_paths_similar returns false before the percentage computation, so the
divisions by the lengths are never reached with a zero denominator. -/
theorem are_paths_similar_empty_safe (p1 p2 : String) (c : ℚ)
    (h : p1 = "" ∨ p2 = "") :
    matchIndexGo p1.data p2.data 0 (min p1.length p2.length) (-1) = -1 ∧
      are_paths_similar p1 p2 c = false :=
  are_paths_similar_nil p1 p2 c h

/-- Witness for C10 at p1 = "", p2 = "x". -/
theorem are_paths_similar_empty_safe_witness :
    matchIndexGo ("" : String).data ("x" : String).data 0
      (min ("" : String).length ("x" : String).length) (-1) = -1 ∧
      are_paths_similar "" "x" (2/5) = false :=
  are_paths_similar_empty_safe "" "x" (2/5) (Or.inl rfl)

